import Mathlib

/-!
Verification development for the 3d-model-tester repository.

The definitions below are a shallow embedding of the animation/movement
logic of `src/main.js`: animation-clip classification, the animation
player (`setAnimation`), attack and jump lifecycle (`performAttack`,
`performJump`), player planar movement and collision resolution
(`updatePlayer`), and the enemy AI tick (`updateEnemy`).

Modelling conventions:
* JavaScript numbers are modelled as `ℚ` (all the arithmetic the claims
  touch is +, -, *, /, min, abs and order comparisons, which floats and
  rationals agree on for the concrete constants involved).
* The source compares `Math.sqrt(nx*nx + nz*nz) > 0.7`; for a
  nonnegative radicand and radius this is equivalent to the squared
  comparison `nx^2 + nz^2 > 0.7^2` (lemma `sqrt_gt_iff_sq_gt` below),
  which is what the executable embedding uses.
* `Math.sin`, `Math.cos`, `Math.atan2`, `Math.sqrt` feeding the enemy's
  heading are kept as uninterpreted oracle functions (`TrigOracle`);
  every claim here is independent of their values.
* `Math.PI` is the IEEE-754 double nearest π, which is exactly the
  rational `884279719003555 / 2^48` (`mathPI` below).
-/

/-- `startsWithChars needle hay` : `needle` is a prefix of `hay`
(character lists). -/
def startsWithChars : List Char → List Char → Bool
  | [], _ => true
  | _ :: _, [] => false
  | c :: cs, d :: ds => c == d && startsWithChars cs ds

/-- `containsChars needle hay` : `needle` occurs contiguously in `hay`. -/
def containsChars (needle : List Char) : List Char → Bool
  | [] => needle.isEmpty
  | c :: t => startsWithChars needle (c :: t) || containsChars needle t

/-- JavaScript `hay.includes(needle)` on strings. -/
def strContains (hay needle : String) : Bool :=
  containsChars needle.toList hay.toList

/-- JavaScript `s.toUpperCase()` for the ASCII clip names at play,
written so that it reduces inside the kernel. -/
def jsToUpper (s : String) : String := String.mk (s.data.map Char.toUpper)

/-- The five canonical animation roles of `animationMap` in `main.js`. -/
inductive Role
  | IDLE
  | WALK
  | RUN
  | JUMP
  | ATTACK
deriving DecidableEq

/-- A named animation clip with its duration, as delivered by the model
loader (`gltf.animations` entries: `clip.name`, `clip.duration`). -/
structure Clip where
  name : String
  duration : ℚ
deriving DecidableEq

/-- One character's role-to-clip bindings: the `animationMap.player` /
`animationMap.enemy` objects of `main.js` (`clip: null` is `none`; the
stored `duration` field always equals the bound clip's duration, so a
single `Option Clip` per role captures both fields). -/
structure AnimMap where
  IDLE : Option Clip
  WALK : Option Clip
  RUN : Option Clip
  JUMP : Option Clip
  ATTACK : Option Clip
deriving DecidableEq

/-- The freshly reset map (all `clip: null, duration: 0`). -/
def emptyAnimMap : AnimMap := ⟨none, none, none, none, none⟩

/-- IDLE keyword test: `name.includes('IDLE') || name.includes('STOPPED')`. -/
def kwIDLE (n : String) : Bool := strContains n "IDLE" || strContains n "STOPPED"

/-- WALK keyword test of `processModelAnimations`: `name.includes('WALK')`. -/
def kwWALK (n : String) : Bool := strContains n "WALK"

/-- RUN keyword test: `name.includes('RUN') || name.includes('SPRINT')`. -/
def kwRUN (n : String) : Bool := strContains n "RUN" || strContains n "SPRINT"

/-- JUMP keyword test: `name.includes('JUMP') || name.includes('LEAP')`. -/
def kwJUMP (n : String) : Bool := strContains n "JUMP" || strContains n "LEAP"

/-- ATTACK keyword test:
`name.includes('ATTACK') || name.includes('SHOOT') || name.includes('FIRE')`. -/
def kwATTACK (n : String) : Bool :=
  strContains n "ATTACK" || strContains n "SHOOT" || strContains n "FIRE"

/-- One iteration of the clip loop of `processModelAnimations`
(main.js lines 961-1021): uppercase the clip name and walk the
`if`/`else if` chain IDLE, WALK, RUN, JUMP, ATTACK.  Note the source
branches have no `!info.map.<ROLE>.clip` guard: a match simply assigns
`info.map.<ROLE>.clip = clip`, overwriting any previous binding. -/
def procClip (m : AnimMap) (c : Clip) : AnimMap :=
  let n := jsToUpper c.name
  if kwIDLE n then { m with IDLE := some c }
  else if kwWALK n then { m with WALK := some c }
  else if kwRUN n then { m with RUN := some c }
  else if kwJUMP n then { m with JUMP := some c }
  else if kwATTACK n then { m with ATTACK := some c }
  else m

/-- `processModelAnimations` (main.js 953-1043), restricted to the
binding map it builds: fold `procClip` over the clip list in source
order (`gltf.animations.forEach`). -/
def processModelAnimations (clips : List Clip) (m : AnimMap) : AnimMap :=
  clips.foldl procClip m

/-- One iteration of the clip loop in the initial static-model load
callback (main.js 205-236, identical for the enemy at 290-311).  This
path only classifies IDLE, ATTACK and WALK — in that order — its WALK
keyword set is `'WALK' || 'RUN'`, and every branch carries a
`&& !animationMap.player.<ROLE>.clip` first-wins guard. -/
def initClip (m : AnimMap) (c : Clip) : AnimMap :=
  let n := jsToUpper c.name
  if kwIDLE n && m.IDLE.isNone then { m with IDLE := some c }
  else if kwATTACK n && m.ATTACK.isNone then { m with ATTACK := some c }
  else if (kwWALK n || strContains n "RUN") && m.WALK.isNone then
    { m with WALK := some c }
  else m

/-- The whole clip loop of the initial static-model load callback. -/
def initLoadClassify (clips : List Clip) (m : AnimMap) : AnimMap :=
  clips.foldl initClip m

/-- The animation-player view of one character inside `setAnimation`:
`state.currentAnimation` (the string `'NONE'` is `none`) and which
role names exist in the `playerAnimations` / `enemyAnimations` action
object (`bound`). -/
structure AnimPlayer where
  current : Option Role
  bound : Role → Bool

/-- Observable playback side effects of one `setAnimation` call:
whether `mixer.stopAllAction()` ran, which action was `reset()`/`play()`ed,
and whether it was configured `LoopOnce + clampWhenFinished`. -/
structure PlayEffect where
  stoppedAll : Bool
  started : Option Role
  loopOnce : Bool
deriving DecidableEq

/-- The empty side effect (the early-return paths of `setAnimation`). -/
def noEffect : PlayEffect := ⟨false, none, false⟩

/-- `setAnimation` (main.js 416-468): early return when the requested
action does not exist, early return when the role is already current,
otherwise stop everything, configure the loop policy (loop-once for
ATTACK/JUMP, loop-repeat otherwise), play, and record the new
`currentAnimation`. -/
def setAnimation (p : AnimPlayer) (r : Role) : AnimPlayer × PlayEffect :=
  if p.bound r = false then (p, noEffect)
  else if p.current = some r then (p, noEffect)
  else ({ p with current := some r },
        ⟨true, some r, r == Role.ATTACK || r == Role.JUMP⟩)

/-- The slice of one character's state that `performAttack` reads and
writes: its animation player, the `isAttacking` flag, and
`info.map.ATTACK.duration` (0 when no ATTACK clip is bound). -/
structure AttackChar where
  anim : AnimPlayer
  isAttacking : Bool
  attackDuration : ℚ

/-- `performAttack` (main.js 470-498).  Returns the updated character
and the duration of the `setTimeout` it arms (`none` when it returns
early).  The source returns immediately when `info.animations.ATTACK`
does not exist — no flag is set and no timer is armed; otherwise it
sets `isAttacking`, requests the ATTACK role, and arms a timer of
`map.ATTACK.duration > 0 ? map.ATTACK.duration : 1.0` seconds. -/
def performAttack (c : AttackChar) : AttackChar × Option ℚ :=
  if c.anim.bound Role.ATTACK = false then (c, none)
  else
    let c1 : AttackChar := { c with isAttacking := true }
    let c2 : AttackChar := { c1 with anim := (setAnimation c1.anim Role.ATTACK).1 }
    (c2, some (if 0 < c.attackDuration then c.attackDuration else 1))

/-- The body of the `setTimeout` callback armed by `performAttack`:
clear `isAttacking`, then request IDLE if an IDLE action exists. -/
def attackTimerExpire (c : AttackChar) : AttackChar :=
  let c1 : AttackChar := { c with isAttacking := false }
  if c1.anim.bound Role.IDLE then
    { c1 with anim := (setAnimation c1.anim Role.IDLE).1 }
  else c1

/-- `playerState.moveSpeed`. -/
def playerMoveSpeed : ℚ := 5

/-- `playerState.runSpeed`. -/
def playerRunSpeed : ℚ := 10

/-- The movement keys `updatePlayer` reads for planar motion. -/
structure PKeys where
  w : Bool
  s : Bool
  shift : Bool
deriving DecidableEq

/-- Main.js line 568: `const currentSpeed = running ? playerState.runSpeed
: playerState.moveSpeed`, where `running = keys.shift` (line 558).  The
source consults no animation binding here; `playerAnimations.RUN` is
only read later (lines 541, 599) to choose which role to request. -/
def selectedSpeed (running : Bool) : ℚ :=
  if running then playerRunSpeed else playerMoveSpeed

/-- Modelled from the spec: the spec's speed-selection rule, "selected
speed is runSpeed if a run-modifier intent is active and a RUN animation
exists, else moveSpeed" — stated for refinement comparison against the
source's `selectedSpeed`, which ignores the RUN binding. -/
def selectedSpeedOfSpec (running hasRUN : Bool) : ℚ :=
  if running && hasRUN then playerRunSpeed else playerMoveSpeed

/-- The planar-velocity computation of `updatePlayer` (main.js 556-572):
active only when W or S is held; `direction` is `-1` for W else `1`;
velocity is the forward vector scaled by the selected speed and the
direction.  The forward components (`-sin ry`, `-cos ry`) are passed in
as `fwdX fwdZ`.  Returns `none` when there is no movement intent (the
source then leaves position untouched). -/
def playerPlanarVelocity (k : PKeys) (fwdX fwdZ : ℚ) : Option (ℚ × ℚ) :=
  if k.w || k.s then
    let dir : ℚ := if k.w then -1 else 1
    let sp := selectedSpeed k.shift
    some (fwdX * sp * dir, fwdZ * sp * dir)
  else none

/-- Vertical state of one character: `position.y`, `velocity.y`,
`isJumping`. -/
structure VertState where
  y : ℚ
  vy : ℚ
  isJumping : Bool
deriving DecidableEq

/-- The gravity constant of main.js line 524 (`9.8`). -/
def gravity : ℚ := 49 / 5

/-- `playerState.jumpSpeed`. -/
def playerJumpSpeed : ℚ := 5

/-- The jump-integration block of `updatePlayer` (main.js 522-553),
active only while `isJumping`: apply gravity to `velocity.y`, advance
`position.y`, and on touching the ground (`position.y <= 0`) clamp to
0, zero the velocity, and clear `isJumping` in the same tick. -/
def jumpIntegrate (s : VertState) (dt : ℚ) : VertState :=
  if s.isJumping then
    let vy := s.vy - gravity * dt
    let y := s.y + vy * dt
    if y ≤ 0 then ⟨0, 0, false⟩ else ⟨y, vy, true⟩
  else s

/-- `performJump` (main.js 1049-1077), vertical slice: early return if
already jumping; otherwise set `isJumping` and launch with
`velocity.y = jumpSpeed` (the y position itself is untouched). -/
def performJumpV (jumpSpeed : ℚ) (s : VertState) : VertState :=
  if s.isJumping then s else ⟨s.y, jumpSpeed, true⟩

/-- The ground-consistency invariant claimed for every character: a
non-jumping character sits exactly on the ground. -/
def vertInvariant (s : VertState) : Prop := s.isJumping = false → s.y = 0

/-- `treeRadius` (main.js 582 / 668). -/
def treeRadius : ℚ := 7 / 10

/-- `mapBoundary` (main.js 579 / 665): half-extent of the 50×50 ground. -/
def mapBoundary : ℚ := 25

/-- The acceptance test of the collision blocks (main.js 586-588 and
672-674): `Math.sqrt(nx*nx+nz*nz) > treeRadius && |nx| < mapBoundary &&
|nz| < mapBoundary`.  The square-root comparison is embedded in its
equivalent squared form (`sqrt_gt_iff_sq_gt`). -/
def acceptMove (nx nz : ℚ) : Bool :=
  decide (treeRadius * treeRadius < nx * nx + nz * nz) &&
  decide (|nx| < mapBoundary) && decide (|nz| < mapBoundary)

/-- One planar movement step with collision resolution, shared verbatim
by `updatePlayer` (575-593) and `updateEnemy` (661-678): compute the
candidate position from velocity and elapsed time, take it in full if
accepted, otherwise keep the old position unchanged. -/
def stepPlanar (px pz vx vz dt : ℚ) : ℚ × ℚ :=
  let nx := px + vx * dt
  let nz := pz + vz * dt
  if acceptMove nx nz then (nx, nz) else (px, pz)

/-- `Math.PI`: the IEEE-754 double closest to π, exactly
`884279719003555 / 2^48`. -/
def mathPI : ℚ := 884279719003555 / 281474976710656

/-- The angle-wrap of `updateEnemy` (main.js 646-647): one conditional
subtraction of 2π followed by one conditional addition of 2π. -/
def wrapAngleDiff (raw : ℚ) : ℚ :=
  let d1 := if mathPI < raw then raw - 2 * mathPI else raw
  if d1 < -mathPI then d1 + 2 * mathPI else d1

/-- The interpolation factor of main.js 649: `Math.min(3 * deltaTime, 1.0)`. -/
def rotFactor (dt : ℚ) : ℚ := min (3 * dt) 1

/-- The smooth-rotation step of `updateEnemy` (main.js 642-649): add the
wrapped angle difference scaled by `rotFactor`. -/
def enemyRotStep (cur target dt : ℚ) : ℚ :=
  cur + wrapAngleDiff (target - cur) * rotFactor dt

/-- `enemyState.moveSpeed`. -/
def enemyMoveSpeed : ℚ := 3

/-- `enemyState.attackDistance`. -/
def attackDistance : ℚ := 2

/-- `enemyState.followDistance`. -/
def followDistance : ℚ := 15

/-- Uninterpreted stand-ins for the float library functions used by
`updateEnemy`'s heading computation; no claim depends on their values. -/
structure TrigOracle where
  sinQ : ℚ → ℚ
  cosQ : ℚ → ℚ
  atan2Q : ℚ → ℚ → ℚ
  sqrtQ : ℚ → ℚ

/-- A 3D vector (`THREE.Vector3` slice used by the AI). -/
structure Vec3Q where
  x : ℚ
  y : ℚ
  z : ℚ
deriving DecidableEq

/-- The enemy state touched by `updateEnemy`: position, heading,
`attackCooldown`, and the attack/animation slice (`ac`). -/
structure EnemyS where
  pos : Vec3Q
  rotY : ℚ
  attackCooldown : ℚ
  ac : AttackChar

/-- `updateEnemy` (main.js 620-690).  Early return when the enemy is
attacking (or a model is missing — both models are taken as present
here).  Distance bands: `< attackDistance` triggers `performAttack` and
resets the cooldown to 2 when the cooldown is ≤ 0; `< followDistance`
rotates toward the player, walks forward through the shared collision
step, and requests WALK; otherwise requests IDLE.  Finally, the
cooldown is decremented by `deltaTime` only when it is `> 0`.  The
band comparisons on `direction.length()` are embedded squared (exact
for a nonnegative length).  Returns the new state and the attack timer
armed this tick, if any. -/
def updateEnemy (T : TrigOracle) (playerPos : Vec3Q) (dt : ℚ) (st : EnemyS) :
    EnemyS × Option ℚ :=
  if st.ac.isAttacking then (st, none)
  else
    let dx := playerPos.x - st.pos.x
    let dy := playerPos.y - st.pos.y
    let dz := playerPos.z - st.pos.z
    let distSq := dx * dx + dy * dy + dz * dz
    let stTimer :=
      if distSq < attackDistance * attackDistance then
        if st.attackCooldown ≤ 0 then
          let pa := performAttack st.ac
          ({ st with ac := pa.1, attackCooldown := 2 }, pa.2)
        else (st, none)
      else if distSq < followDistance * followDistance then
        let d := T.sqrtQ distSq
        let targetAngle := T.atan2Q (dx / d) (dz / d)
        let rotNew := st.rotY + wrapAngleDiff (targetAngle - st.rotY) * rotFactor dt
        let vx := -(T.sinQ rotNew) * enemyMoveSpeed * (-1)
        let vz := -(T.cosQ rotNew) * enemyMoveSpeed * (-1)
        let p2 := stepPlanar st.pos.x st.pos.z vx vz dt
        ({ st with pos := ⟨p2.1, st.pos.y, p2.2⟩, rotY := rotNew,
                   ac := { st.ac with anim := (setAnimation st.ac.anim Role.WALK).1 } },
         none)
      else
        ({ st with ac := { st.ac with anim := (setAnimation st.ac.anim Role.IDLE).1 } },
         none)
    let st1 := stTimer.1
    ({ st1 with attackCooldown :=
        if 0 < st1.attackCooldown then st1.attackCooldown - dt else st1.attackCooldown },
     stTimer.2)

/-- For a nonnegative radius, the source's `Math.sqrt(nx*nx+nz*nz) > r`
is equivalent to the squared comparison used by `acceptMove`. -/
theorem sqrt_gt_iff_sq_gt (x z r : ℝ) (hr : 0 ≤ r) :
    r < Real.sqrt (x ^ 2 + z ^ 2) ↔ r ^ 2 < x ^ 2 + z ^ 2 :=
  Real.lt_sqrt hr

/-- Projection of one classifier iteration onto the IDLE binding: the
IDLE branch fires exactly on the IDLE keyword set, with no guard on an
existing binding. -/
theorem procClip_IDLE (m : AnimMap) (c : Clip) :
    (procClip m c).IDLE = if kwIDLE (jsToUpper c.name) then some c else m.IDLE := by
  by_cases h1 : kwIDLE (jsToUpper c.name) = true <;>
    by_cases h2 : kwWALK (jsToUpper c.name) = true <;>
    by_cases h3 : kwRUN (jsToUpper c.name) = true <;>
    by_cases h4 : kwJUMP (jsToUpper c.name) = true <;>
    by_cases h5 : kwATTACK (jsToUpper c.name) = true <;>
    simp [procClip, h1, h2, h3, h4, h5]

/-- An existing IDLE binding survives one iteration of the initial-load
classifier (its branches are guarded by `isNone` and the other branches
touch other fields). -/
theorem initClip_preserves_IDLE (m : AnimMap) (c d : Clip)
    (h : m.IDLE = some d) : (initClip m c).IDLE = some d := by
  have hn : m.IDLE.isNone = false := by rw [h]; rfl
  unfold initClip
  by_cases h2 : (kwATTACK (jsToUpper c.name) && m.ATTACK.isNone) = true <;>
    by_cases h3 : ((kwWALK (jsToUpper c.name) || strContains (jsToUpper c.name) "RUN")
      && m.WALK.isNone) = true <;>
    simp [hn, h2, h3, h]

/-- Claim C1 (amended): `processModelAnimations` tests each clip against
the role keyword sets in the fixed precedence order IDLE, WALK, RUN,
JUMP, ATTACK and assigns it to the first role in that order whose
keyword set it matches — but with no "has no binding yet" guard: the
assignment happens for arbitrary current bindings `m`, overwriting any
existing one.  In particular a clip named "RUN_JUMP" is classified as
RUN and not as JUMP. -/
theorem classifier_precedence (m : AnimMap) (c : Clip) :
    (kwIDLE (jsToUpper c.name) = true → procClip m c = { m with IDLE := some c }) ∧
    (kwIDLE (jsToUpper c.name) = false → kwWALK (jsToUpper c.name) = true →
      procClip m c = { m with WALK := some c }) ∧
    (kwIDLE (jsToUpper c.name) = false → kwWALK (jsToUpper c.name) = false →
      kwRUN (jsToUpper c.name) = true → procClip m c = { m with RUN := some c }) ∧
    (kwIDLE (jsToUpper c.name) = false → kwWALK (jsToUpper c.name) = false →
      kwRUN (jsToUpper c.name) = false → kwJUMP (jsToUpper c.name) = true →
      procClip m c = { m with JUMP := some c }) ∧
    (kwIDLE (jsToUpper c.name) = false → kwWALK (jsToUpper c.name) = false →
      kwRUN (jsToUpper c.name) = false → kwJUMP (jsToUpper c.name) = false →
      kwATTACK (jsToUpper c.name) = true → procClip m c = { m with ATTACK := some c }) ∧
    (kwIDLE (jsToUpper c.name) = false → kwWALK (jsToUpper c.name) = false →
      kwRUN (jsToUpper c.name) = false → kwJUMP (jsToUpper c.name) = false →
      kwATTACK (jsToUpper c.name) = false → procClip m c = m) ∧
    (processModelAnimations [⟨"RUN_JUMP", 1⟩] emptyAnimMap).RUN =
      some ⟨"RUN_JUMP", 1⟩ ∧
    (processModelAnimations [⟨"RUN_JUMP", 1⟩] emptyAnimMap).JUMP = none := by
  refine ⟨?_, ?_, ?_, ?_, ?_, ?_, by decide, by decide⟩
  · intro h1; simp [procClip, h1]
  · intro h1 h2; simp [procClip, h1, h2]
  · intro h1 h2 h3; simp [procClip, h1, h2, h3]
  · intro h1 h2 h3 h4; simp [procClip, h1, h2, h3, h4]
  · intro h1 h2 h3 h4 h5; simp [procClip, h1, h2, h3, h4, h5]
  · intro h1 h2 h3 h4 h5; simp [procClip, h1, h2, h3, h4, h5]

/-- Witness for `classifier_precedence`: a concrete IDLE-matching clip
is bound to IDLE, and a concrete ATTACK-only clip falls through the
whole chain to ATTACK. -/
theorem classifier_precedence_witness :
    kwIDLE (jsToUpper "My_Idle") = true ∧
    procClip emptyAnimMap ⟨"My_Idle", 2⟩ =
      { emptyAnimMap with IDLE := some ⟨"My_Idle", 2⟩ } ∧
    procClip emptyAnimMap ⟨"Shoot_Arrow", 3⟩ =
      { emptyAnimMap with ATTACK := some ⟨"Shoot_Arrow", 3⟩ } :=
  ⟨by decide, (classifier_precedence emptyAnimMap ⟨"My_Idle", 2⟩).1 (by decide),
    (classifier_precedence emptyAnimMap ⟨"Shoot_Arrow", 3⟩).2.2.2.2.1
      (by decide) (by decide) (by decide) (by decide) (by decide)⟩

/-- Counterexample to claim C1 as stated: with clips "WALK_1" then
"WALK_2", the second clip matches only the already-bound WALK role, so
under the claim ("assigned to the first role … which has no binding
yet") it would be ignored and WALK would stay bound to "WALK_1"; the
code instead rebinds WALK to "WALK_2". -/
theorem classifier_precedence_cex :
    (processModelAnimations [⟨"WALK_1", 1⟩, ⟨"WALK_2", 1⟩] emptyAnimMap).WALK =
      some ⟨"WALK_2", 1⟩ ∧
    some (⟨"WALK_2", 1⟩ : Clip) ≠ some (⟨"WALK_1", 1⟩ : Clip) :=
  ⟨by decide, by decide⟩

/-- Claim C2 (amended): in `processModelAnimations` the LAST matching
clip in source order wins a role (appending a matching clip always
rebinds IDLE to it, regardless of the bindings produced by the earlier
clips); it is the initial static-model load classifier that is
first-wins (an existing IDLE binding is never overwritten there).
Either way each role carries at most one binding. -/
theorem binding_last_wins_vs_init (clips : List Clip) (m : AnimMap) (c d : Clip) :
    (kwIDLE (jsToUpper c.name) = true →
      (processModelAnimations (clips ++ [c]) m).IDLE = some c) ∧
    (m.IDLE = some d → (initLoadClassify clips m).IDLE = some d) := by
  constructor
  · intro h
    have : processModelAnimations (clips ++ [c]) m =
        procClip (processModelAnimations clips m) c := by
      simp [processModelAnimations, List.foldl_append]
    rw [this, procClip_IDLE, if_pos h]
  · intro h
    induction clips generalizing m with
    | nil => exact h
    | cons c0 cs ih =>
      exact ih (initClip m c0) (initClip_preserves_IDLE m c0 d h)

/-- Witness for `binding_last_wins_vs_init`: a trailing "Base_IDLE"
clip wins the IDLE binding in `processModelAnimations`, while the
initial-load classifier keeps an existing "First_IDLE" binding when a
later "Second_IDLE" clip arrives. -/
theorem binding_last_wins_vs_init_witness :
    kwIDLE (jsToUpper "Base_IDLE") = true ∧
    (processModelAnimations ([⟨"WalkCycle", 3⟩] ++ [⟨"Base_IDLE", 2⟩])
      emptyAnimMap).IDLE = some ⟨"Base_IDLE", 2⟩ ∧
    (initLoadClassify [⟨"Second_IDLE", 1⟩]
      { emptyAnimMap with IDLE := some ⟨"First_IDLE", 1⟩ }).IDLE =
      some ⟨"First_IDLE", 1⟩ :=
  ⟨by decide,
    (binding_last_wins_vs_init [⟨"WalkCycle", 3⟩] emptyAnimMap
      ⟨"Base_IDLE", 2⟩ ⟨"Base_IDLE", 2⟩).1 (by decide),
    (binding_last_wins_vs_init [⟨"Second_IDLE", 1⟩]
      { emptyAnimMap with IDLE := some ⟨"First_IDLE", 1⟩ }
      ⟨"Base_IDLE", 2⟩ ⟨"First_IDLE", 1⟩).2 rfl⟩

/-- Counterexample to claim C2 as stated: with clips "IDLE_A" then
"IDLE_B", the claim says the FIRST matching clip "IDLE_A" is bound and
the later match ignored; `processModelAnimations` binds "IDLE_B". -/
theorem binding_first_wins_cex :
    (processModelAnimations [⟨"IDLE_A", 1⟩, ⟨"IDLE_B", 2⟩] emptyAnimMap).IDLE =
      some ⟨"IDLE_B", 2⟩ ∧
    some (⟨"IDLE_B", 2⟩ : Clip) ≠ some (⟨"IDLE_A", 1⟩ : Clip) :=
  ⟨by decide, by decide⟩

/-- Claim C9: requesting a role whose action does not exist is a silent
no-op — `setAnimation` hits the early `return` before any mutation, so
`currentAnimation` is unchanged and no playback side effect happens;
totality of the function reflects that nothing is thrown. -/
theorem request_unbound_noop (p : AnimPlayer) (r : Role)
    (h : p.bound r = false) : setAnimation p r = (p, noEffect) := by
  simp [setAnimation, h]

/-- A concrete animation player with nothing bound. -/
def bareAnim : AnimPlayer := ⟨some Role.IDLE, fun _ => false⟩

/-- A concrete animation player with every role bound. -/
def fullAnim : AnimPlayer := ⟨some Role.IDLE, fun _ => true⟩

/-- Witness for `request_unbound_noop`: requesting RUN on a player with
no bound actions leaves it untouched and produces no effect. -/
theorem request_unbound_noop_witness :
    setAnimation bareAnim Role.RUN = (bareAnim, noEffect) :=
  request_unbound_noop bareAnim Role.RUN rfl

/-- Claim C3 (amended): when an ATTACK action exists, `performAttack`
sets `isAttacking`, requests the ATTACK role, and arms a one-shot timer
of the bound duration, falling back to 1.0 only for a non-positive
bound duration; on expiry `isAttacking` is cleared and IDLE is
requested if bound.  When no ATTACK action exists, `performAttack`
returns immediately: no flag, no role request, and no timer — the
attack lock is NOT armed. -/
theorem attack_lifecycle (c : AttackChar) :
    (c.anim.bound Role.ATTACK = false → performAttack c = (c, none)) ∧
    (c.anim.bound Role.ATTACK = true →
      (performAttack c).1.isAttacking = true ∧
      (performAttack c).1.anim.current = some Role.ATTACK ∧
      (performAttack c).2 =
        some (if 0 < c.attackDuration then c.attackDuration else 1)) ∧
    (attackTimerExpire c).isAttacking = false ∧
    (c.anim.bound Role.IDLE = true →
      (attackTimerExpire c).anim.current = some Role.IDLE) := by
  refine ⟨fun h => by simp [performAttack, h], fun h => ?_, ?_, fun h => ?_⟩
  · refine ⟨by simp [performAttack, h], ?_, by simp [performAttack, h]⟩
    by_cases hc : c.anim.current = some Role.ATTACK <;>
      simp [performAttack, setAnimation, h, hc]
  · by_cases h : c.anim.bound Role.IDLE = true <;>
      by_cases hc : c.anim.current = some Role.IDLE <;>
      simp [attackTimerExpire, setAnimation, h, hc]
  · by_cases hc : c.anim.current = some Role.IDLE <;>
      simp [attackTimerExpire, setAnimation, h, hc]

/-- Witness for `attack_lifecycle`: with every role bound and an ATTACK
duration of 0.8s the timer is armed for exactly 0.8s, and expiry
reverts to IDLE. -/
theorem attack_lifecycle_witness :
    (performAttack ⟨fullAnim, false, 4/5⟩).1.isAttacking = true ∧
    (performAttack ⟨fullAnim, false, 4/5⟩).2 = some (4/5) ∧
    (attackTimerExpire ⟨⟨some Role.ATTACK, fun _ => true⟩, true, 4/5⟩).isAttacking
      = false ∧
    (attackTimerExpire ⟨⟨some Role.ATTACK, fun _ => true⟩, true, 4/5⟩).anim.current
      = some Role.IDLE := by
  have h1 := (attack_lifecycle ⟨fullAnim, false, 4/5⟩).2.1 rfl
  have h2 := (attack_lifecycle ⟨⟨some Role.ATTACK, fun _ => true⟩, true, 4/5⟩).2.2
  refine ⟨h1.1, ?_, h2.1, h2.2 rfl⟩
  rw [h1.2.2]
  norm_num

/-- Counterexample to claim C3 as stated: on a character with no bound
ATTACK clip the claim requires the attack lock to be armed anyway
(`isAttacking := true` and a 1.0s timer); `performAttack` instead
returns early, leaving `isAttacking` false and arming nothing. -/
theorem attack_lock_unarmed_cex :
    (performAttack ⟨bareAnim, false, 0⟩).1.isAttacking = false ∧
    (performAttack ⟨bareAnim, false, 0⟩).2 = none := by
  constructor <;> rfl

/-- Claim C4 (amended): on a tick with forward or backward intent the
planar speed is `runSpeed` exactly when the run modifier (shift) is
held — the RUN animation binding is not consulted for the speed (it
only selects which role is requested later) — and backward intent
flips the sign of the motion relative to forward intent. -/
theorem speed_selection (k : PKeys) (fX fZ : ℚ) :
    selectedSpeed true = playerRunSpeed ∧
    selectedSpeed false = playerMoveSpeed ∧
    playerPlanarVelocity ⟨true, k.s, k.shift⟩ fX fZ =
      some (fX * selectedSpeed k.shift * (-1), fZ * selectedSpeed k.shift * (-1)) ∧
    playerPlanarVelocity ⟨false, true, k.shift⟩ fX fZ =
      some (fX * selectedSpeed k.shift * 1, fZ * selectedSpeed k.shift * 1) ∧
    playerPlanarVelocity ⟨false, false, k.shift⟩ fX fZ = none := by
  refine ⟨rfl, rfl, ?_, ?_, rfl⟩ <;> simp [playerPlanarVelocity]

/-- Counterexample to claim C4 as stated: with the run modifier held
and NO RUN animation bound, the claim requires speed `moveSpeed` (5);
line 568 of the source selects `runSpeed` (10) regardless of the
binding, as the refinement comparison with the spec-side rule shows. -/
theorem speed_ignores_run_binding_cex :
    selectedSpeed true = 10 ∧ selectedSpeedOfSpec true false = 5 ∧
    selectedSpeed true ≠ selectedSpeedOfSpec true false := by
  refine ⟨rfl, rfl, ?_⟩
  decide

/-- Claim C7: the ground-consistency invariant — a non-jumping
character sits at y = 0 — is preserved by the jump integration of
`updatePlayer` and by `performJump`; moreover whenever the integrated
height falls to 0 or below, that same tick clamps y to 0, zeroes the
vertical velocity, and clears `isJumping`. -/
theorem jump_ground_consistency (s : VertState) (dt js : ℚ) :
    (vertInvariant s → vertInvariant (jumpIntegrate s dt)) ∧
    (vertInvariant s → vertInvariant (performJumpV js s)) ∧
    (s.isJumping = true → s.y + (s.vy - gravity * dt) * dt ≤ 0 →
      jumpIntegrate s dt = ⟨0, 0, false⟩) := by
  refine ⟨fun h => ?_, fun h => ?_, fun hj hy => ?_⟩
  · unfold jumpIntegrate vertInvariant
    cases hj : s.isJumping
    · simp [hj]
      exact h hj
    · simp only [hj]
      by_cases hy : s.y + (s.vy - gravity * dt) * dt ≤ 0 <;> simp [hy]
  · unfold performJumpV vertInvariant
    cases hj : s.isJumping <;> simp [hj]
  · simp [jumpIntegrate, hj, hy]

/-- Witness for `jump_ground_consistency`: a jumping character at
height 1.5 with upward speed 2 lands within a 1-second tick: gravity
brings the integrated height to −6.3, and the tick ends clamped on the
ground, velocity zero, `isJumping` cleared. -/
theorem jump_ground_consistency_witness :
    (⟨3/2, 2, true⟩ : VertState).isJumping = true ∧
    jumpIntegrate ⟨3/2, 2, true⟩ 1 = ⟨0, 0, false⟩ :=
  ⟨rfl, (jump_ground_consistency ⟨3/2, 2, true⟩ 1 5).2.2 rfl (by norm_num [gravity])⟩

/-- Claim C6: a candidate planar move (for either character — the
collision blocks of `updatePlayer` and `updateEnemy` are identical and
both embedded by `stepPlanar`) is accepted exactly when its squared
planar distance from the obstacle center strictly exceeds the squared
obstacle radius (equivalently, by `sqrt_gt_iff_sq_gt`, when the
distance strictly exceeds the radius) and both axis magnitudes are
strictly under the arena half-extent; acceptance applies the full
step, rejection leaves the position completely unchanged. -/
theorem collision_rule (px pz vx vz dt : ℚ) :
    (acceptMove (px + vx * dt) (pz + vz * dt) = true ↔
      (treeRadius * treeRadius <
        (px + vx * dt) * (px + vx * dt) + (pz + vz * dt) * (pz + vz * dt) ∧
       |px + vx * dt| < mapBoundary ∧ |pz + vz * dt| < mapBoundary)) ∧
    (acceptMove (px + vx * dt) (pz + vz * dt) = true →
      stepPlanar px pz vx vz dt = (px + vx * dt, pz + vz * dt)) ∧
    (acceptMove (px + vx * dt) (pz + vz * dt) = false →
      stepPlanar px pz vx vz dt = (px, pz)) := by
  refine ⟨?_, fun h => ?_, fun h => ?_⟩
  · simp [acceptMove, and_assoc]
  · simp [stepPlanar, h]
  · simp [stepPlanar, h]

/-- Witness for `collision_rule`: from (5, 5) a step to (6, 5) is
accepted in full; from (0.6, 0) a step to (0.5, 0), inside the tree
trunk, is rejected and the position stays exactly (0.6, 0). -/
theorem collision_rule_witness :
    acceptMove 6 5 = true ∧ stepPlanar 5 5 1 0 1 = (6, 5) ∧
    acceptMove (1/2) 0 = false ∧ stepPlanar (3/5) 0 (-(1/10)) 0 1 = (3/5, 0) := by
  have ha : acceptMove 6 5 = true := by
    norm_num [acceptMove, treeRadius, mapBoundary]
  have hb : acceptMove (1/2) 0 = false := by
    norm_num [acceptMove, treeRadius, mapBoundary]
  have h1 := (collision_rule 5 5 1 0 1).2.1 (by norm_num; exact ha)
  have h2 := (collision_rule (3/5) 0 (-1/10) 0 1).2.2 (by norm_num; exact hb)
  norm_num at h1 h2
  exact ⟨ha, h1, hb, h2⟩

/-- Claim C8 (amended): provided the raw heading difference lies within
[−3π, 3π] — which covers a target in atan2 range (−π, π] against any
heading within 2π of it — the single-pass wrap of `updateEnemy` yields
a value congruent to the raw difference modulo 2π with magnitude at
most π, and the applied per-step turn (wrapped difference times
`min(3·dt, 1)`) also has magnitude at most π for any nonnegative
elapsed time.  Outside that raw range one wrap pass is insufficient
and the turn can exceed π (see the counterexample). -/
theorem wrap_shorter_arc (raw : ℚ) (h : |raw| ≤ 3 * mathPI) :
    |wrapAngleDiff raw| ≤ mathPI ∧
    (wrapAngleDiff raw = raw ∨ wrapAngleDiff raw = raw - 2 * mathPI ∨
      wrapAngleDiff raw = raw + 2 * mathPI) ∧
    (∀ dt : ℚ, 0 ≤ dt → |wrapAngleDiff raw * rotFactor dt| ≤ mathPI) := by
  have hpi : (0 : ℚ) < mathPI := by norm_num [mathPI]
  rw [abs_le] at h
  have hw : |wrapAngleDiff raw| ≤ mathPI ∧
      (wrapAngleDiff raw = raw ∨ wrapAngleDiff raw = raw - 2 * mathPI ∨
        wrapAngleDiff raw = raw + 2 * mathPI) := by
    by_cases h1 : mathPI < raw
    · have he : wrapAngleDiff raw = raw - 2 * mathPI := by
        have hd : ¬(raw - 2 * mathPI < -mathPI) := by linarith [h.2]
        simp only [wrapAngleDiff, if_pos h1, if_neg hd]
      rw [he]
      exact ⟨by rw [abs_le]; constructor <;> linarith [h.2], Or.inr (Or.inl rfl)⟩
    · by_cases h2 : raw < -mathPI
      · have he : wrapAngleDiff raw = raw + 2 * mathPI := by
          simp only [wrapAngleDiff, if_neg h1, if_pos h2]
        rw [he]
        exact ⟨by rw [abs_le]; constructor <;> linarith [h.1],
          Or.inr (Or.inr rfl)⟩
      · have he : wrapAngleDiff raw = raw := by
          simp only [wrapAngleDiff, if_neg h1, if_neg h2]
        rw [he]
        exact ⟨by rw [abs_le]; constructor <;> linarith, Or.inl rfl⟩
  refine ⟨hw.1, hw.2, fun dt hdt => ?_⟩
  have hf0 : 0 ≤ rotFactor dt := le_min (by linarith) (by norm_num)
  have hf1 : rotFactor dt ≤ 1 := min_le_right _ _
  rw [abs_mul, abs_of_nonneg hf0]
  calc |wrapAngleDiff raw| * rotFactor dt ≤ mathPI * 1 :=
        mul_le_mul hw.1 hf1 hf0 (le_of_lt hpi)
  _ = mathPI := by ring

/-- Witness for `wrap_shorter_arc`: a raw difference of 2π wraps to a
turn of magnitude at most π, also after scaling by `rotFactor (1/6)`. -/
theorem wrap_shorter_arc_witness :
    |(2 : ℚ) * mathPI| ≤ 3 * mathPI ∧
    |wrapAngleDiff (2 * mathPI)| ≤ mathPI ∧
    |wrapAngleDiff (2 * mathPI) * rotFactor (1/6)| ≤ mathPI := by
  have hh : |(2 : ℚ) * mathPI| ≤ 3 * mathPI := by
    rw [abs_of_nonneg (by norm_num [mathPI])]
    norm_num [mathPI]
  exact ⟨hh, (wrap_shorter_arc (2 * mathPI) hh).1,
    (wrap_shorter_arc (2 * mathPI) hh).2.2 (1/6) (by norm_num)⟩

/-- Counterexample to claim C8 as stated ("regardless of the sign or
magnitude of the raw difference"): for a raw difference of −3.4π
(current heading 2.5π, target −0.9π, both reachable: atan2 targets lie
in (−π, π] and the heading accumulates unwrapped), the single-pass
wrap leaves −1.4π, so with `dt = 1` the applied turn has magnitude
1.4π > π and is not the shorter arc. -/
theorem wrap_overshoot_cex :
    mathPI < |wrapAngleDiff (-(9/10) * mathPI - (5/2) * mathPI)| ∧
    mathPI <
      |enemyRotStep ((5/2) * mathPI) (-(9/10) * mathPI) 1 - (5/2) * mathPI| := by
  have h1 : wrapAngleDiff (-(9/10) * mathPI - (5/2) * mathPI) =
      -(7/5) * mathPI := by
    norm_num [wrapAngleDiff, mathPI]
  have h2 : enemyRotStep ((5/2) * mathPI) (-(9/10) * mathPI) 1 - (5/2) * mathPI =
      -(7/5) * mathPI := by
    have hr : rotFactor 1 = 1 := by norm_num [rotFactor]
    unfold enemyRotStep
    rw [hr]
    norm_num [wrapAngleDiff, mathPI]
  rw [h1, h2, abs_of_neg (by norm_num [mathPI])]
  norm_num [mathPI]

/-- Claim C10: for nonnegative elapsed time the interpolation factor
`min(3·dt, 1)` is at most 1, so the smooth-rotation step of
`updateEnemy` never overshoots: the updated heading lies between the
previous heading and the wrap-adjusted target `cur + wrapAngleDiff
(target − cur)`, and the angular distance to that wrap-adjusted target
never increases within the tick. -/
theorem rot_no_overshoot (cur target dt : ℚ) (hdt : 0 ≤ dt) :
    rotFactor dt ≤ 1 ∧
    min cur (cur + wrapAngleDiff (target - cur)) ≤ enemyRotStep cur target dt ∧
    enemyRotStep cur target dt ≤ max cur (cur + wrapAngleDiff (target - cur)) ∧
    |cur + wrapAngleDiff (target - cur) - enemyRotStep cur target dt| ≤
      |wrapAngleDiff (target - cur)| := by
  have hf0 : 0 ≤ rotFactor dt := le_min (by linarith) (by norm_num)
  have hf1 : rotFactor dt ≤ 1 := min_le_right _ _
  have hstep : enemyRotStep cur target dt =
      cur + wrapAngleDiff (target - cur) * rotFactor dt := rfl
  refine ⟨hf1, ?_, ?_, ?_⟩
  · rcases le_or_lt 0 (wrapAngleDiff (target - cur)) with hw0 | hw0
    · rw [min_eq_left (by nlinarith), hstep]; nlinarith
    · rw [min_eq_right (by nlinarith), hstep]; nlinarith
  · rcases le_or_lt 0 (wrapAngleDiff (target - cur)) with hw0 | hw0
    · rw [max_eq_right (by nlinarith), hstep]; nlinarith
    · rw [max_eq_left (by nlinarith), hstep]; nlinarith
  · rw [hstep, show cur + wrapAngleDiff (target - cur) -
        (cur + wrapAngleDiff (target - cur) * rotFactor dt) =
        wrapAngleDiff (target - cur) * (1 - rotFactor dt) from by ring,
      abs_mul, abs_of_nonneg (by linarith : (0:ℚ) ≤ 1 - rotFactor dt)]
    nlinarith [abs_nonneg (wrapAngleDiff (target - cur))]

/-- Witness for `rot_no_overshoot` at heading 0, target 1, dt = 1/3. -/
theorem rot_no_overshoot_witness :
    (0 : ℚ) ≤ 1/3 ∧ rotFactor (1/3) ≤ 1 ∧
    min 0 (0 + wrapAngleDiff (1 - 0)) ≤ enemyRotStep 0 1 (1/3) ∧
    enemyRotStep 0 1 (1/3) ≤ max 0 (0 + wrapAngleDiff (1 - 0)) ∧
    |0 + wrapAngleDiff (1 - 0) - enemyRotStep 0 1 (1/3)| ≤ |wrapAngleDiff (1 - 0)| := by
  have h := rot_no_overshoot 0 1 (1/3) (by norm_num)
  exact ⟨by norm_num, h.1, h.2.1, h.2.2.1, h.2.2.2⟩

/-- Claim C5 (amended): the enemy cooldown handling is NOT an
unconditional decrement.  While the enemy is attacking, `updateEnemy`
returns at once and the cooldown (like everything else) is untouched.
Otherwise, after the attack band possibly resets the cooldown to 2,
the final step decrements by the elapsed time only when the cooldown
is strictly positive: a cooldown already ≤ 0 stays exactly as it is
(it can dip below zero only by the tail of one tick). -/
theorem enemy_cooldown_policy (T : TrigOracle) (playerPos : Vec3Q) (dt : ℚ)
    (st : EnemyS) :
    (st.ac.isAttacking = true → updateEnemy T playerPos dt st = (st, none)) ∧
    (st.ac.isAttacking = false →
      (updateEnemy T playerPos dt st).1.attackCooldown =
        (let dx := playerPos.x - st.pos.x
         let dy := playerPos.y - st.pos.y
         let dz := playerPos.z - st.pos.z
         let c :=
           if dx * dx + dy * dy + dz * dz < attackDistance * attackDistance ∧
              st.attackCooldown ≤ 0
           then (2 : ℚ) else st.attackCooldown
         if 0 < c then c - dt else c)) := by
  constructor
  · intro h
    simp [updateEnemy, h]
  · intro h
    by_cases hA : (playerPos.x - st.pos.x) * (playerPos.x - st.pos.x) +
        (playerPos.y - st.pos.y) * (playerPos.y - st.pos.y) +
        (playerPos.z - st.pos.z) * (playerPos.z - st.pos.z) <
        attackDistance * attackDistance
    · by_cases hC : st.attackCooldown ≤ 0
      · simp [updateEnemy, h, hA, hC]
      · simp [updateEnemy, h, hA, hC]
    · by_cases hF : (playerPos.x - st.pos.x) * (playerPos.x - st.pos.x) +
          (playerPos.y - st.pos.y) * (playerPos.y - st.pos.y) +
          (playerPos.z - st.pos.z) * (playerPos.z - st.pos.z) <
          followDistance * followDistance
      · simp [updateEnemy, h, hA, hF]
      · simp [updateEnemy, h, hA, hF]

/-- A trivial stand-in for the float library functions (the cooldown
claims do not depend on the heading computation). -/
def trivialTrig : TrigOracle := ⟨fun _ => 0, fun _ => 0, fun _ _ => 0, fun _ => 0⟩

/-- A concrete enemy at (10, 0, 10) with its cooldown exactly 0. -/
def enemyNoCooldown : EnemyS := ⟨⟨10, 0, 10⟩, 0, 0, ⟨bareAnim, false, 0⟩⟩

/-- A concrete enemy at (10, 0, 10) with 3 seconds of cooldown left. -/
def enemyCooling : EnemyS := ⟨⟨10, 0, 10⟩, 0, 3, ⟨bareAnim, false, 0⟩⟩

/-- The player at its spawn point (−8, 0, −8), far beyond the enemy's
follow distance. -/
def farPlayer : Vec3Q := ⟨-8, 0, -8⟩

/-- Counterexample to claim C5 as stated: a non-attacking enemy tick
with cooldown 0 and elapsed time 1 leaves the cooldown at 0 — the
source only decrements under `attackCooldown > 0` (main.js 687-689) —
whereas an unconditional decrement would give 0 − 1 = −1. -/
theorem cooldown_not_unconditional_cex :
    (updateEnemy trivialTrig farPlayer 1 enemyNoCooldown).1.attackCooldown = 0 ∧
    (0 : ℚ) ≠ 0 - 1 := by
  constructor
  · norm_num [updateEnemy, enemyNoCooldown, farPlayer, trivialTrig, setAnimation,
      bareAnim, attackDistance, followDistance]
  · norm_num

/-- Witness for `enemy_cooldown_policy`: the idle-band tick of a
non-attacking enemy with positive cooldown 3 and dt = 1/2 decrements
the cooldown to 5/2. -/
theorem enemy_cooldown_policy_witness :
    enemyCooling.ac.isAttacking = false ∧
    (updateEnemy trivialTrig farPlayer (1/2) enemyCooling).1.attackCooldown = 5/2 := by
  have h := (enemy_cooldown_policy trivialTrig farPlayer (1/2) enemyCooling).2 rfl
  refine ⟨rfl, ?_⟩
  rw [h]
  norm_num [enemyCooling, farPlayer, attackDistance]
